import Mathlib

/-!
Verification of the OUTBOUND.B4UBIZ attendance board against its source.

The repository holds two concatenated programs:

* Part A, a React component backed by a mock Firestore
  (`makeMockDB`, `markOut`, `markReturn`, `deleteRecord`, `addEmployee`,
  `removeEmployee`, `onSnapshotMock`, `runTransactionMock`).
* Part B, an Express server (`getStatusSummary`, `GET /api/admin/logs`,
  `POST /api/outbounds`).

The definitions below are a shallow embedding of those functions.
Conventions of the embedding:

* ISO timestamp strings (`new Date().toISOString()`) compare
  lexicographically in the code, i.e. chronologically; they are modelled
  as `Nat`.
* A JavaScript field that is `null`, `undefined`, or absent is modelled
  as `none`; these three are indistinguishable for every read the
  program performs (all reads are truthiness tests or direct use) and
  `JSON.stringify` of the localStorage mock drops `undefined` fields.
* The mock store `{ outbound_records: {...}, outbound_logs: {...} }` is
  a string-keyed object; an object is modelled as an association list in
  key-insertion order (JavaScript preserves insertion order for
  non-numeric string keys, both for assignment and for `Object.keys`).
-->  -/

namespace Outbound

/-- One document of the `outbound_records` collection.  The five mutation
operations only ever write the fields below; `none` stands for a JS
`null` / `undefined` / absent field. -/
structure Rec where
  name : Option String
  outAt : Option Nat
  returnAt : Option Nat
  place : Option String
  status : String
  lastUpdated : Option Nat
  createdAt : Option Nat
deriving DecidableEq

/-- One document of the `outbound_logs` collection: `writeLog` appends
`{ text, ts: serverTimestamp() }`. -/
structure LogA where
  text : String
  ts : Nat
deriving DecidableEq

/-- The `outbound_records` object: employee name to record, in key
insertion order. -/
abbrev RecStore := List (String × Rec)

/-- The whole mock store (`readStore` / `writeStore` payload). -/
structure DB where
  records : RecStore
  logs : List LogA
deriving DecidableEq

def dbEmpty : DB := ⟨[], []⟩

/-- `store[col][id]` lookup. -/
def getRec : RecStore → String → Option Rec
  | [], _ => none
  | (k, v) :: t, n => if k = n then some v else getRec t n

/-- `store[col][id] = r` assignment: replaces the value when the key is
present (keeping its position) and appends the key otherwise. -/
def putRec : RecStore → String → Rec → RecStore
  | [], n, r => [(n, r)]
  | (k, v) :: t, n, r => if k = n then (n, r) :: t else (k, v) :: putRec t n r

/-- A record without its `lastUpdated` metadata stamp (used to compare
states up to the write-time bookkeeping field). -/
def Rec.core (r : Rec) :
    Option String × Option Nat × Option Nat × Option String × String × Option Nat :=
  (r.name, r.outAt, r.returnAt, r.place, r.status, r.createdAt)

/-- `writeLog(text)`: `addDoc(collection("outbound_logs"), { text, ts })`.
`addDocMock` assigns a fresh key, so it appends in insertion order. -/
def writeLog (db : DB) (text : String) (ts : Nat) : DB :=
  { db with logs := db.logs ++ [⟨text, ts⟩] }

/-- The record-store effect of the `markOut` transaction body.
Source: `const data = snap && snap.exists ? snap.data() : (snap || null)`;
when no document exists `data` is the (truthy) snapshot object, whose
`returnAt` is `undefined`, so in both branches the new `returnAt` is the
prior document's `returnAt` or absent.  `tx.set(docRef, newData, {merge:true})`
is `Object.assign` in the mock, hence `createdAt` of a prior document
survives.  `place: place || "(unspecified)"` replaces an empty string. -/
def txMarkOut (name place : String) (now : Nat) (s : RecStore) : RecStore :=
  let prior := getRec s name
  putRec s name
    { name := some name
      outAt := some now
      returnAt := prior.bind Rec.returnAt
      place := some (if place = "" then "(unspecified)" else place)
      status := "out"
      lastUpdated := some now
      createdAt := prior.bind Rec.createdAt }

/-- `markOut(name, place)` with `now` the wall clock at the call:
runs the transaction, then appends one log entry. -/
def markOut (db : DB) (name place : String) (now : Nat) : DB :=
  writeLog { db with records := txMarkOut name place now db.records }
    (toString name ++ " marked OUT at " ++ toString now ++ " to " ++ place) now

/-- The record-store effect of the `markReturn` transaction body:
if no document exists, `tx.set` a fresh `returned` document with
`outAt: null, place: null`; otherwise `tx.update` (a merge) of
`returnAt`, `status`, `lastUpdated` only. -/
def txMarkReturn (name : String) (now : Nat) (s : RecStore) : RecStore :=
  match getRec s name with
  | none =>
      putRec s name
        ⟨some name, none, some now, none, "returned", some now, none⟩
  | some r =>
      putRec s name
        { r with returnAt := some now, status := "returned", lastUpdated := some now }

/-- `markReturn(name)` with `now` the wall clock at the call. -/
def markReturn (db : DB) (name : String) (now : Nat) : DB :=
  writeLog { db with records := txMarkReturn name now db.records }
    (toString name ++ " RETURNED at " ++ toString now) now

/-- The record-store effect of `deleteRecord`: an unconditional
`setDoc(docRef, {...cleared...}, {merge:true})`; the mock `setDoc`
always `Object.assign`s onto the existing document (creating it when
absent), so only `createdAt` of a prior document survives. -/
def txClear (name : String) (now : Nat) (s : RecStore) : RecStore :=
  let prior := getRec s name
  putRec s name
    ⟨some name, none, none, none, "unregistered", some now, prior.bind Rec.createdAt⟩

/-- `deleteRecord(name)` — the "clear record" operation. -/
def deleteRecord (db : DB) (name : String) (now : Nat) : DB :=
  writeLog { db with records := txClear name now db.records }
    (toString name ++ " record cleared") now

/-- The record-store effect of `addEmployee`: `setDoc` of
`{ name, status: "unregistered", createdAt }`; the mock `setDoc` merges,
so every other field of a prior document survives. -/
def txAdd (name : String) (now : Nat) (s : RecStore) : RecStore :=
  let prior := getRec s name
  putRec s name
    { name := some name
      outAt := prior.bind Rec.outAt
      returnAt := prior.bind Rec.returnAt
      place := prior.bind Rec.place
      status := "unregistered"
      lastUpdated := prior.bind Rec.lastUpdated
      createdAt := some now }

/-- `addEmployee(name)`: guarded by `if (!name) return;`. -/
def addEmployee (db : DB) (name : String) (now : Nat) : DB :=
  if name = "" then db
  else
    writeLog { db with records := txAdd name now db.records }
      ("Admin added employee " ++ name) now

/-- The record-store effect of `removeEmployee`: a merge `setDoc` of
`{ status: "removed", lastUpdated }` only. -/
def txRemove (name : String) (now : Nat) (s : RecStore) : RecStore :=
  let prior := getRec s name
  putRec s name
    { name := prior.bind Rec.name
      outAt := prior.bind Rec.outAt
      returnAt := prior.bind Rec.returnAt
      place := prior.bind Rec.place
      status := "removed"
      lastUpdated := some now
      createdAt := prior.bind Rec.createdAt }

/-- `removeEmployee(name)`. -/
def removeEmployee (db : DB) (name : String) (now : Nat) : DB :=
  writeLog { db with records := txRemove name now db.records }
    ("Admin removed employee " ++ name) now

/-! ### Transition Engine operation sequences -/

/-- The five Transition Engine operations of §4.3 as implemented in the
source (markOut / markReturn / deleteRecord / addEmployee /
removeEmployee). -/
inductive Op where
  | markOutOp (name place : String)
  | markReturnOp (name : String)
  | clearOp (name : String)
  | addOp (name : String)
  | removeOp (name : String)
deriving DecidableEq

/-- Execute one operation at its wall-clock time. -/
def execOp (db : DB) (p : Op × Nat) : DB :=
  match p.1 with
  | .markOutOp n pl => markOut db n pl p.2
  | .markReturnOp n => markReturn db n p.2
  | .clearOp n => deleteRecord db n p.2
  | .addOp n => addEmployee db n p.2
  | .removeOp n => removeEmployee db n p.2

/-- Execute a sequence of timestamped operations. -/
def runOps (db : DB) (ops : List (Op × Nat)) : DB :=
  ops.foldl execOp db

/-- `returnAt >= outAt`, read on optional timestamps: vacuous when either
side is absent. -/
def optLe (a b : Option Nat) : Prop :=
  match a, b with
  | some x, some y => x ≤ y
  | _, _ => True

instance : (a b : Option Nat) → Decidable (optLe a b)
  | some x, some y => inferInstanceAs (Decidable (x ≤ y))
  | some _, none => .isTrue True.intro
  | none, some _ => .isTrue True.intro
  | none, none => .isTrue True.intro

/-- The spec's per-record invariant: `status == out` implies
`outAt != null`; `status == returned` implies `returnAt != null` and
`returnAt >= outAt` whenever both timestamps are present. -/
def recInv (r : Rec) : Prop :=
  (r.status = "out" → r.outAt.isSome = true) ∧
  (r.status = "returned" → r.returnAt.isSome = true ∧ optLe r.outAt r.returnAt)

/-- The spec's store invariant: at most one record per employee id
(no duplicate keys) and every record satisfies `recInv`. -/
def storeInv (s : RecStore) : Prop :=
  (s.map Prod.fst).Nodup ∧ ∀ p ∈ s, recInv p.2

/-- Every timestamp stored in the record store is at most `t` (the wall
clock only moves forward, so all stored stamps lag the current time). -/
def boundedBy (s : RecStore) (t : Nat) : Prop :=
  ∀ p ∈ s, (∀ a ∈ p.2.outAt, a ≤ t) ∧ (∀ b ∈ p.2.returnAt, b ≤ t)

/-! ### The mock transaction under concurrency

`runTransactionMock(dbRef, updateFn)` reads the whole store into a local
copy synchronously at the call (`const store = readStore()`), lets
`updateFn` mutate only that local copy through `tx.get/set/update`
(yielding to the event loop at each `await`), and finally publishes the
whole local copy with `writeStore(store)`.  Two overlapping transactions
therefore each perform one atomic read of the global store followed by
one atomic whole-store write of their locally computed copy; the local
computation is pure.  A transaction is modelled as its pure store
transformer together with a two-phase program (read, then write), and an
execution as an arbitrary interleaving of the two programs' steps. -/

/-- Progress of one mock transaction: not yet read / holding its local
snapshot / already written back. -/
inductive Phase where
  | ready
  | loaded
  | done
deriving DecidableEq

/-- Joint state of the global store and two in-flight mock transactions
with local snapshots `l1`, `l2`. -/
structure TxS (α : Type) where
  g : α
  ph1 : Phase
  l1 : α
  ph2 : Phase
  l2 : α
deriving DecidableEq

/-- One scheduler step: `true` advances transaction 1, `false`
transaction 2.  A `ready` transaction snapshots the global store
(`readStore`), a `loaded` one publishes its transformed snapshot
(`writeStore`), a `done` one does nothing. -/
def stepTx {α : Type} (f1 f2 : α → α) (which : Bool) (s : TxS α) : TxS α :=
  if which then
    match s.ph1 with
    | .ready => { s with l1 := s.g, ph1 := .loaded }
    | .loaded => { s with g := f1 s.l1, ph1 := .done }
    | .done => s
  else
    match s.ph2 with
    | .ready => { s with l2 := s.g, ph2 := .loaded }
    | .loaded => { s with g := f2 s.l2, ph2 := .done }
    | .done => s

/-- Run the two mock transactions under an arbitrary schedule, starting
from global store `init`. -/
def runSched {α : Type} (f1 f2 : α → α) (sched : List Bool) (init : α) : TxS α :=
  sched.foldl (fun s w => stepTx f1 f2 w s) ⟨init, .ready, init, .ready, init⟩

/-- Reachability invariant of the two-transaction system: each local
snapshot is the initial store or the other transaction's published
result, and the global store is one of the five values a race can
produce. -/
def txInv {α : Type} (f1 f2 : α → α) (i : α) (s : TxS α) : Prop :=
  (s.ph1 ≠ .ready → s.l1 = i ∨ (s.l1 = f2 i ∧ s.ph2 = .done)) ∧
  (s.ph2 ≠ .ready → s.l2 = i ∨ (s.l2 = f1 i ∧ s.ph1 = .done)) ∧
  (s.ph1 ≠ .done → s.ph2 ≠ .done → s.g = i) ∧
  (s.ph1 = .done → s.ph2 ≠ .done → s.g = f1 i) ∧
  (s.ph2 = .done → s.ph1 ≠ .done → s.g = f2 i) ∧
  (s.ph1 = .done → s.ph2 = .done →
    s.g = f1 i ∨ s.g = f1 (f2 i) ∨ s.g = f2 i ∨ s.g = f2 (f1 i))

/-! ### The mock subscription (`onSnapshotMock`) timing model

`onSnapshotMock(queryObj, cb)` schedules the initial snapshot with
`setTimeout(() => cb(...), 0)` and further snapshots with
`setInterval(..., 2000)`; the interval body is guarded by the `stopped`
flag and the unsubscribe closure sets `stopped = true` and calls
`clearInterval(iv)`.  The initial `setTimeout` is neither cleared nor
guarded by `stopped`.

Timeline abstraction: tick `0` is the synchronous `onSnapshot` call,
tick `1` is the next macrotask (the `setTimeout(..., 0)` callback), and
even ticks `≥ 2` are the interval firings.  Unsubscribing at tick `u`
cancels every interval firing not strictly earlier than `u`; it cannot
cancel the initial timeout. -/

/-- Whether the subscriber callback fires at tick `t`, given that
unsubscribe ran at tick `unsubAt` (or never, for `none`). -/
def firesAt (unsubAt : Option Nat) (t : Nat) : Bool :=
  if t = 1 then true
  else if 2 ≤ t ∧ t % 2 = 0 then
    match unsubAt with
    | none => true
    | some u => decide (t < u)
  else false

/-- Number of callback invocations at ticks strictly after the
unsubscribe at tick `u`, watched up to tick `horizon`. -/
def cbAfterUnsub (u horizon : Nat) : Nat :=
  ((List.range (horizon + 1)).filter
    (fun t => decide (u < t) && firesAt (some u) t)).length

/-- The closure state touched by the unsubscribe function returned by
`onSnapshotMock`: the `stopped` flag and whether the interval is still
registered. -/
structure SubState where
  stopped : Bool
  intervalActive : Bool
deriving DecidableEq

/-- The unsubscribe closure: `stopped = true; clearInterval(iv)`. -/
def unsubscribeMock (_s : SubState) : SubState := ⟨true, false⟩

/-! ### Part B: the Express server -/

/-- A row of the in-memory `users` table. -/
structure UserB where
  id : Nat
  name : String
deriving DecidableEq

/-- A row of the in-memory `outbounds` array.  `createdDay` abstracts
`new Date(o.createdAt).toDateString()`, the calendar-day identity of the
creation instant. -/
structure OutboundB where
  userId : Nat
  location : String
  status : String
  outTime : Nat
  createdDay : Nat
deriving DecidableEq

/-- The wall-clock facts `getStatusSummary` reads: `getDay()`
(0 = Sunday, 6 = Saturday), `getHours()`, and the `toDateString()`
day identity. -/
structure Clock where
  day : Nat
  hour : Nat
  dateKey : Nat
deriving DecidableEq

/-- `POST /api/outbounds`: pushes a record with `status: 'outbound'` to
the end of the `outbounds` array. -/
def createOutbound (outbounds : List OutboundB) (u : UserB) (location : String)
    (outTime : Nat) (now : Clock) : List OutboundB :=
  outbounds ++ [⟨u.id, location, "outbound", outTime, now.dateKey⟩]

/-- `outbounds.find(o => o.userId === user.id && o.status === 'outbound')`. -/
def findCurrentOutbound (outbounds : List OutboundB) (uid : Nat) : Option OutboundB :=
  outbounds.find? (fun o => o.userId == uid && o.status == "outbound")

/-- The per-user status computed inside `getStatusSummary`: start from
`office`, switch to `outbound` when an active outbound exists, then let
the weekend, off-hours and not-yet-registered checks override. -/
def deriveUserStatus (outbounds : List OutboundB) (u : UserB) (now : Clock) : String :=
  let currentOutbound := findCurrentOutbound outbounds u.id
  let base := if currentOutbound.isSome then "outbound" else "office"
  if now.day = 0 ∨ now.day = 6 then "vacation"
  else if now.hour < 9 ∨ 18 ≤ now.hour then "absent"
  else if 9 ≤ now.hour ∧ currentOutbound.isNone then
    if (outbounds.filter
        (fun o => o.userId == u.id && o.createdDay == now.dateKey)).length = 0 then
      "absent"
    else base
  else base

/-- `currentLocation` of a summary row: the active outbound's location,
or the office placeholder. -/
def currentLocationOf (outbounds : List OutboundB) (uid : Nat) : String :=
  match findCurrentOutbound outbounds uid with
  | some o => o.location
  | none => "사무실"

/-- One bucket of the summary: `userStatus.filter(s => s.status === st).length`. -/
def summaryCount (users : List UserB) (outbounds : List OutboundB) (now : Clock)
    (st : String) : Nat :=
  (users.filter (fun u => deriveUserStatus outbounds u now == st)).length

/-- A row of the `systemLogs` array (only the fields the log view
reads). -/
structure LogB where
  action : String
  ts : Nat
deriving DecidableEq

/-- JavaScript `arr.slice(-n)`: the last `n` elements, except that
`slice(-0)` is `slice(0)`, the whole array. -/
def sliceNeg {α : Type} (l : List α) (n : Nat) : List α :=
  if n = 0 then l else l.drop (l.length - n)

/-- `GET /api/admin/logs`: `systemLogs.slice(-limit).reverse()`.
`slice` copies, and `reverse` runs on the copy, so `systemLogs` itself
is untouched. -/
def adminLogsView (logs : List LogB) (lim : Nat) : List LogB :=
  (sliceNeg logs lim).reverse

/-- The handler as a state-passing read: the response body together with
the `systemLogs` array after the request. -/
def adminLogsHandler (logs : List LogB) (lim : Nat) : List LogB × List LogB :=
  (adminLogsView logs lim, logs)

/-- The log view the mock live feed delivers.  In mock mode
`query(collection(...), orderBy("ts","desc"), limit(50))` evaluates to
the bare collection object (`queryMock` returns its first argument and
`orderByMock`/`limitMock` return `null` and are discarded), and
`onSnapshotMock`'s `buildSnap` enumerates `Object.keys` of the
collection — key-insertion order, with neither ordering nor a cap. -/
def mockLogFeed (db : DB) : List LogA := db.logs


/-! ## Supporting lemmas -/

/-! ### Lookup/update lemmas for the mock object store -/

theorem getRec_putRec_self (s : RecStore) (n : String) (r : Rec) :
    getRec (putRec s n r) n = some r := by
  induction s with
  | nil => simp [putRec, getRec]
  | cons p t ih =>
      obtain ⟨k, v⟩ := p
      by_cases h : k = n
      · simp [putRec, getRec, h]
      · simp [putRec, getRec, h, ih]

theorem getRec_putRec_ne (s : RecStore) (n m : String) (r : Rec) (h : m ≠ n) :
    getRec (putRec s n r) m = getRec s m := by
  induction s with
  | nil => simp [putRec, getRec, Ne.symm h]
  | cons p t ih =>
      obtain ⟨k, v⟩ := p
      by_cases hk : k = n
      · subst hk
        simp [putRec, getRec, Ne.symm h]
      · by_cases hm : k = m
        · subst hm
          simp [putRec, getRec, hk]
        · simp [putRec, getRec, hk, hm, ih]

theorem mem_putRec (s : RecStore) (n : String) (r : Rec) (q : String × Rec)
    (hq : q ∈ putRec s n r) : q = (n, r) ∨ q ∈ s := by
  induction s with
  | nil => simpa [putRec] using hq
  | cons p t ih =>
      obtain ⟨k, v⟩ := p
      by_cases h : k = n
      · simp only [putRec, if_pos h] at hq
        rcases List.mem_cons.mp hq with h1 | h1
        · exact Or.inl h1
        · exact Or.inr (List.mem_cons_of_mem _ h1)
      · simp only [putRec, if_neg h] at hq
        rcases List.mem_cons.mp hq with h1 | h1
        · exact Or.inr (h1 ▸ List.mem_cons_self _ _)
        · rcases ih h1 with h2 | h2
          · exact Or.inl h2
          · exact Or.inr (List.mem_cons_of_mem _ h2)

theorem mem_keys_putRec (s : RecStore) (n : String) (r : Rec) (m : String)
    (hm : m ∈ (putRec s n r).map Prod.fst) :
    m ∈ s.map Prod.fst ∨ m = n := by
  rcases List.mem_map.mp hm with ⟨q, hq, hq2⟩
  rcases mem_putRec s n r q hq with h | h
  · exact Or.inr (by rw [← hq2, h])
  · exact Or.inl (List.mem_map.mpr ⟨q, h, hq2⟩)

theorem nodup_keys_putRec (s : RecStore) (n : String) (r : Rec)
    (hs : (s.map Prod.fst).Nodup) : ((putRec s n r).map Prod.fst).Nodup := by
  induction s with
  | nil => simp [putRec]
  | cons p t ih =>
      obtain ⟨k, v⟩ := p
      simp only [List.map_cons, List.nodup_cons] at hs
      by_cases h : k = n
      · subst h
        simpa [putRec, List.nodup_cons] using hs
      · simp only [putRec, if_neg h, List.map_cons]
        refine List.nodup_cons.mpr ⟨?_, ih hs.2⟩
        intro hk
        rcases mem_keys_putRec t n r k hk with h1 | h1
        · exact hs.1 h1
        · exact h h1

theorem getRec_some_mem (s : RecStore) (n : String) (r : Rec)
    (h : getRec s n = some r) : (n, r) ∈ s := by
  induction s with
  | nil => simp [getRec] at h
  | cons p t ih =>
      obtain ⟨k, v⟩ := p
      by_cases hk : k = n
      · subst hk
        have hv : v = r := by simpa [getRec] using h
        exact hv ▸ List.mem_cons_self _ _
      · simp only [getRec, if_neg hk] at h
        exact List.mem_cons_of_mem _ (ih h)

/-! ### Invariant preservation for the five operations -/

theorem boundedBy_mono (s : RecStore) (t u : Nat) (h : boundedBy s t) (htu : t ≤ u) :
    boundedBy s u := by
  intro p hp
  obtain ⟨h1, h2⟩ := h p hp
  exact ⟨fun a ha => le_trans (h1 a ha) htu, fun b hb => le_trans (h2 b hb) htu⟩

theorem storeInv_putRec (s : RecStore) (n : String) (r : Rec)
    (hs : storeInv s) (hr : recInv r) : storeInv (putRec s n r) := by
  constructor
  · exact nodup_keys_putRec s n r hs.1
  · intro p hp
    rcases mem_putRec s n r p hp with h | h
    · rw [h]; exact hr
    · exact hs.2 p h

theorem boundedBy_putRec (s : RecStore) (n : String) (r : Rec) (t : Nat)
    (hb : boundedBy s t) (h1 : ∀ a ∈ r.outAt, a ≤ t) (h2 : ∀ b ∈ r.returnAt, b ≤ t) :
    boundedBy (putRec s n r) t := by
  intro p hp
  rcases mem_putRec s n r p hp with h | h
  · rw [h]; exact ⟨h1, h2⟩
  · exact hb p h

theorem bind_outAt_le (s : RecStore) (n : String) (t : Nat) (hb : boundedBy s t) :
    ∀ a ∈ (getRec s n).bind Rec.outAt, a ≤ t := by
  intro a ha
  cases hg : getRec s n with
  | none => rw [hg] at ha; simp at ha
  | some r =>
      rw [hg] at ha
      simp only [Option.some_bind] at ha
      exact (hb _ (getRec_some_mem s n r hg)).1 a ha

theorem bind_returnAt_le (s : RecStore) (n : String) (t : Nat) (hb : boundedBy s t) :
    ∀ b ∈ (getRec s n).bind Rec.returnAt, b ≤ t := by
  intro b hbm
  cases hg : getRec s n with
  | none => rw [hg] at hbm; simp at hbm
  | some r =>
      rw [hg] at hbm
      simp only [Option.some_bind] at hbm
      exact (hb _ (getRec_some_mem s n r hg)).2 b hbm

/-- One Transition Engine step at wall-clock time `u ≥ t` keeps both the
record invariant and the timestamp bound. -/
theorem step_inv (op : Op) (u t : Nat) (db : DB)
    (hs : storeInv db.records) (hb : boundedBy db.records t) (htu : t ≤ u) :
    storeInv (execOp db (op, u)).records ∧ boundedBy (execOp db (op, u)).records u := by
  have hbu : boundedBy db.records u := boundedBy_mono _ t u hb htu
  cases op with
  | markOutOp n pl =>
      refine ⟨storeInv_putRec _ _ _ hs ?_, boundedBy_putRec _ _ _ _ hbu ?_ ?_⟩
      · exact ⟨fun _ => rfl, by intro habs; simp at habs⟩
      · intro a ha
        simp only [Option.mem_def, Option.some.injEq] at ha
        omega
      · exact fun b hbm => bind_returnAt_le db.records n u hbu b hbm
  | markReturnOp n =>
      show storeInv (txMarkReturn n u db.records) ∧ boundedBy (txMarkReturn n u db.records) u
      unfold txMarkReturn
      cases hg : getRec db.records n with
      | none =>
          refine ⟨storeInv_putRec _ _ _ hs ?_, boundedBy_putRec _ _ _ _ hbu ?_ ?_⟩
          · refine ⟨by intro habs; simp at habs, fun _ => ⟨rfl, True.intro⟩⟩
          · intro a ha; simp at ha
          · intro b hbm
            simp only [Option.mem_def, Option.some.injEq] at hbm
            omega
      | some r =>
          have hrb := hb _ (getRec_some_mem db.records n r hg)
          refine ⟨storeInv_putRec _ _ _ hs ?_, boundedBy_putRec _ _ _ _ hbu ?_ ?_⟩
          · refine ⟨by intro habs; simp at habs, fun _ => ⟨rfl, ?_⟩⟩
            cases ho : r.outAt with
            | none => exact True.intro
            | some a =>
                show a ≤ u
                have := hrb.1 a (by rw [ho]; rfl)
                omega
          · exact fun a ha => le_trans (hrb.1 a ha) htu
          · intro b hbm
            simp only [Option.mem_def, Option.some.injEq] at hbm
            omega
  | clearOp n =>
      refine ⟨storeInv_putRec _ _ _ hs ?_, boundedBy_putRec _ _ _ _ hbu ?_ ?_⟩
      · exact ⟨by intro habs; simp at habs, by intro habs; simp at habs⟩
      · intro a ha; simp at ha
      · intro b hbm; simp at hbm
  | addOp n =>
      by_cases hn : n = ""
      · simpa [execOp, addEmployee, hn] using ⟨hs, hbu⟩
      · show storeInv (addEmployee db n u).records ∧ boundedBy (addEmployee db n u).records u
        simp only [addEmployee, if_neg hn]
        refine ⟨storeInv_putRec _ _ _ hs ?_, boundedBy_putRec _ _ _ _ hbu ?_ ?_⟩
        · exact ⟨by intro habs; simp at habs, by intro habs; simp at habs⟩
        · exact fun a ha => bind_outAt_le db.records n u hbu a ha
        · exact fun b hbm => bind_returnAt_le db.records n u hbu b hbm
  | removeOp n =>
      refine ⟨storeInv_putRec _ _ _ hs ?_, boundedBy_putRec _ _ _ _ hbu ?_ ?_⟩
      · exact ⟨by intro habs; simp at habs, by intro habs; simp at habs⟩
      · exact fun a ha => bind_outAt_le db.records n u hbu a ha
      · exact fun b hbm => bind_returnAt_le db.records n u hbu b hbm

/-- Executing a sequence of operations whose wall-clock times are
nondecreasing (and at least the bound on the stamps already stored)
keeps the store invariant. -/
theorem runOps_inv (ops : List (Op × Nat)) :
    ∀ (db : DB) (t : Nat), storeInv db.records → boundedBy db.records t →
    List.Chain (fun a b => a ≤ b) t (ops.map Prod.snd) →
    storeInv (runOps db ops).records := by
  induction ops with
  | nil => intro db t hs _ _; exact hs
  | cons p rest ih =>
      intro db t hs hb hc
      obtain ⟨op, u⟩ := p
      simp only [List.map_cons, List.chain_cons] at hc
      have hstep := step_inv op u t db hs hb hc.1
      exact ih (execOp db (op, u)) u hstep.1 hstep.2 hc.2

theorem txInv_init {α : Type} (f1 f2 : α → α) (i : α) :
    txInv f1 f2 i ⟨i, .ready, i, .ready, i⟩ := by
  refine ⟨?_, ?_, ?_, ?_, ?_, ?_⟩ <;> simp

theorem txInv_step {α : Type} (f1 f2 : α → α) (i : α) (w : Bool) (s : TxS α)
    (h : txInv f1 f2 i s) : txInv f1 f2 i (stepTx f1 f2 w s) := by
  obtain ⟨hL1, hL2, hA, hB, hC, hD⟩ := h
  obtain ⟨g, ph1, l1, ph2, l2⟩ := s
  cases w <;> cases ph1 <;> cases ph2 <;>
    simp_all [stepTx, txInv] <;>
    tauto

theorem txInv_runSched {α : Type} (f1 f2 : α → α) (i : α) (sched : List Bool) :
    txInv f1 f2 i (runSched f1 f2 sched i) := by
  suffices h : ∀ s, txInv f1 f2 i s →
      txInv f1 f2 i (sched.foldl (fun s w => stepTx f1 f2 w s) s) by
    exact h _ (txInv_init f1 f2 i)
  induction sched with
  | nil => intro s hs; exact hs
  | cons w rest ih =>
      intro s hs
      exact ih _ (txInv_step f1 f2 i w s hs)

theorem putRec_putRec (s : RecStore) (n : String) (r1 r2 : Rec) :
    putRec (putRec s n r1) n r2 = putRec s n r2 := by
  induction s with
  | nil => simp [putRec]
  | cons p t ih =>
      obtain ⟨k, v⟩ := p
      by_cases h : k = n
      · simp [putRec, h]
      · simp [putRec, h, ih]

theorem map_core_putRec_congr (s : RecStore) (n : String) (r1 r2 : Rec)
    (h : r1.core = r2.core) :
    (putRec s n r1).map (fun p => (p.1, p.2.core)) =
      (putRec s n r2).map (fun p => (p.1, p.2.core)) := by
  induction s with
  | nil => simp [putRec, h]
  | cons p t ih =>
      obtain ⟨k, v⟩ := p
      by_cases hk : k = n
      · simp [putRec, hk, h]
      · simp [putRec, hk, ih]

/-- A callback strictly after the unsubscribe tick fires exactly when it
is the initial timeout and the unsubscribe was immediate. -/
theorem cb_pred_eq (u t : Nat) :
    (decide (u < t) && firesAt (some u) t) =
      (decide (u = 0) && decide (t = 1)) := by
  unfold firesAt
  by_cases h1 : t = 1
  · subst h1
    rw [if_pos rfl]
    rw [show (decide (u < 1)) = (decide (u = 0)) from
      decide_eq_decide.mpr Nat.lt_one_iff]
    simp
  · rw [if_neg h1]
    have ht1 : decide (t = 1) = false := by simp [h1]
    rw [ht1, Bool.and_false]
    by_cases h2 : 2 ≤ t ∧ t % 2 = 0
    · rw [if_pos h2]
      rcases Nat.lt_or_ge u t with h | h
      · have : decide (t < u) = false := by
          simp only [decide_eq_false_iff_not]
          omega
        simp [this]
      · have : decide (u < t) = false := by
          simp only [decide_eq_false_iff_not]
          omega
        simp [this]
    · rw [if_neg h2]
      simp

theorem range_filter_eq_one :
    ∀ h : Nat,
      ((List.range (h + 1)).filter (fun t => decide (t = 1))).length = min h 1
  | 0 => by decide
  | n + 1 => by
      rw [List.range_succ, List.filter_append, List.length_append,
        range_filter_eq_one n]
      by_cases hn : n = 0
      · subst hn
        decide
      · have : (List.filter (fun t => decide (t = 1)) [n + 1]) = [] := by
          simp
          omega
        rw [this]
        simp
        omega

/-- Closed form for the number of callbacks delivered after the
unsubscribe tick. -/
theorem cbAfterUnsub_eq (u horizon : Nat) :
    cbAfterUnsub u horizon = if u = 0 then min horizon 1 else 0 := by
  unfold cbAfterUnsub
  rw [List.filter_congr (fun t _ => cb_pred_eq u t)]
  by_cases hu : u = 0
  · subst hu
    have : (fun t => decide ((0 : Nat) = 0) && decide (t = 1)) =
        (fun t => decide (t = 1)) := by
      funext t
      simp
    rw [this, range_filter_eq_one horizon, if_pos rfl]
  · have : (fun t => decide (u = 0) && decide (t = 1)) =
        (fun _ => false) := by
      funext t
      simp [hu]
    rw [this, if_neg hu]
    simp

/-- No branch of the per-user status derivation produces `"returned"`. -/
theorem deriveUserStatus_ne_returned (outbounds : List OutboundB)
    (u : UserB) (now : Clock) :
    deriveUserStatus outbounds u now ≠ "returned" := by
  unfold deriveUserStatus
  by_cases h1 : now.day = 0 ∨ now.day = 6
  · simp [h1]
  · rw [if_neg h1]
    by_cases h2 : now.hour < 9 ∨ 18 ≤ now.hour
    · simp [h2]
    · rw [if_neg h2]
      by_cases h3 : 9 ≤ now.hour ∧ (findCurrentOutbound outbounds u.id).isNone
      · rw [if_pos h3]
        by_cases h4 : (outbounds.filter
            (fun o => o.userId == u.id && o.createdDay == now.dateKey)).length = 0
        · simp [h4]
        · rw [if_neg h4]
          cases hc : (findCurrentOutbound outbounds u.id).isSome <;> simp [hc]
      · rw [if_neg h3]
        cases hc : (findCurrentOutbound outbounds u.id).isSome <;> simp [hc]

/-! ## Claims -/

/-- C1 counterexample: `markOut` stores `place || "(unspecified)"`, so
for the empty place string the written record's place is
`"(unspecified)"`, not the given place — the claim fails for
`place = ""`. -/
theorem c1_counterexample :
    (getRec (markOut dbEmpty "Kim" "" 5).records "Kim").map Rec.place
        = some (some "(unspecified)") ∧
    "(unspecified)" ≠ "" := by
  constructor
  · decide
  · decide

/-- C1 (amended): for a nonempty place string, `markOut` writes a record
with `outAt = now`, the given place, status `"out"`, and the prior
record's `returnAt` (absent when there was no prior record); an empty
place string is replaced by `"(unspecified)"`. -/
theorem c1_markOut_record (db : DB) (name place : String) (now : Nat)
    (h : place ≠ "") :
    getRec (markOut db name place now).records name =
      some { name := some name
             outAt := some now
             returnAt := (getRec db.records name).bind Rec.returnAt
             place := some place
             status := "out"
             lastUpdated := some now
             createdAt := (getRec db.records name).bind Rec.createdAt } := by
  show getRec (txMarkOut name place now db.records) name = _
  simp [txMarkOut, getRec_putRec_self, h]

/-- Witness for C1 (amended) at a concrete input. -/
theorem c1_markOut_record_witness :
    ("HQ" : String) ≠ "" ∧
    getRec (markOut dbEmpty "Kim" "HQ" 3).records "Kim" =
      some { name := some "Kim"
             outAt := some 3
             returnAt := (getRec dbEmpty.records "Kim").bind Rec.returnAt
             place := some "HQ"
             status := "out"
             lastUpdated := some 3
             createdAt := (getRec dbEmpty.records "Kim").bind Rec.createdAt } :=
  ⟨by decide, c1_markOut_record dbEmpty "Kim" "HQ" 3 (by decide)⟩

/-- C2: `markReturn` creates a fresh `returned` record with
`outAt = null` when none exists, and otherwise only updates `returnAt`,
`status` and `lastUpdated`, preserving `outAt` and `place`. -/
theorem c2_markReturn_record (db : DB) (name : String) (now : Nat) :
    getRec (markReturn db name now).records name =
      some (match getRec db.records name with
        | none => ⟨some name, none, some now, none, "returned", some now, none⟩
        | some r => { r with returnAt := some now
                             status := "returned"
                             lastUpdated := some now }) := by
  show getRec (txMarkReturn name now db.records) name = _
  unfold txMarkReturn
  cases getRec db.records name <;> simp [getRec_putRec_self]

/-- C7 counterexample: `deleteRecord` never checks existence — on an
empty store, clearing the unknown id `"Ghost"` succeeds and creates a
record for it, contradicting the claimed `NotFound` failure. -/
theorem c7_counterexample :
    getRec dbEmpty.records "Ghost" = none ∧
    getRec (deleteRecord dbEmpty "Ghost" 0).records "Ghost" =
      some ⟨some "Ghost", none, none, none, "unregistered", some 0, none⟩ := by
  constructor
  · rfl
  · decide

/-- C7 (amended): `clearRecord` always succeeds, for every id: it writes
the cleared record (status `unregistered`, `outAt`/`returnAt`/`place`
nulled), creating the record when the id was unknown rather than failing
with `NotFound`. -/
theorem c7_clearRecord_total (db : DB) (name : String) (now : Nat) :
    getRec (deleteRecord db name now).records name =
      some { name := some name
             outAt := none
             returnAt := none
             place := none
             status := "unregistered"
             lastUpdated := some now
             createdAt := (getRec db.records name).bind Rec.createdAt } := by
  show getRec (txClear name now db.records) name = _
  simp [txClear, getRec_putRec_self]

/-- C8 counterexample: clearing twice does not leave exactly the state of
clearing once — the second call rewrites `lastUpdated` and appends a
second log entry. -/
theorem c8_counterexample :
    deleteRecord (deleteRecord dbEmpty "Kim" 1) "Kim" 2 ≠
      deleteRecord dbEmpty "Kim" 1 := by
  decide

/-- C8 (amended): a second `clearRecord` is idempotent up to metadata:
it leaves every record unchanged apart from the cleared record's
`lastUpdated` stamp, and appends exactly one more log entry. -/
theorem c8_clearRecord_idem (db : DB) (name : String) (t1 t2 : Nat) :
    ((deleteRecord (deleteRecord db name t1) name t2).records.map
        (fun p => (p.1, p.2.core)))
      = ((deleteRecord db name t1).records.map (fun p => (p.1, p.2.core))) ∧
    (deleteRecord (deleteRecord db name t1) name t2).logs
      = (deleteRecord db name t1).logs
          ++ [⟨toString name ++ " record cleared", t2⟩] := by
  constructor
  · show ((txClear name t2 (txClear name t1 db.records)).map
        (fun p => (p.1, p.2.core)))
      = ((txClear name t1 db.records).map (fun p => (p.1, p.2.core)))
    unfold txClear
    rw [getRec_putRec_self, putRec_putRec]
    exact map_core_putRec_congr _ _ _ _ rfl
  · rfl

/-- C3: starting from the empty store, any sequence of the five
Transition Engine operations run at nondecreasing wall-clock times
(each operation takes `now = new Date()`, and real time never goes
backwards) leaves the store satisfying the record invariant: unique
keys, `status = "out"` implies `outAt` present, and
`status = "returned"` implies `returnAt` present and `≥ outAt` whenever
both stamps exist. -/
theorem c3_transition_invariant (ops : List (Op × Nat))
    (hmono : List.Chain (fun a b => a ≤ b) 0 (ops.map Prod.snd)) :
    storeInv (runOps dbEmpty ops).records := by
  refine runOps_inv ops dbEmpty 0 ?_ ?_ hmono
  · exact ⟨List.nodup_nil, fun p hp => absurd hp (List.not_mem_nil p)⟩
  · exact fun p hp => absurd hp (List.not_mem_nil p)

/-- Witness for C3 at a concrete operation sequence. -/
theorem c3_transition_invariant_witness :
    List.Chain (fun a b => a ≤ b) 0
      (([(Op.markOutOp "Kim" "HQ", 1), (Op.markReturnOp "Kim", 2),
         (Op.addOp "Lee", 3), (Op.clearOp "Kim", 4),
         (Op.removeOp "Lee", 5)] : List (Op × Nat)).map Prod.snd) ∧
    storeInv (runOps dbEmpty
      [(Op.markOutOp "Kim" "HQ", 1), (Op.markReturnOp "Kim", 2),
       (Op.addOp "Lee", 3), (Op.clearOp "Kim", 4),
       (Op.removeOp "Lee", 5)]).records :=
  ⟨by simp [List.chain_cons], c3_transition_invariant _ (by simp [List.chain_cons])⟩

/-- C4 counterexample: the schedule read₁, read₂, write₁, write₂ of
`markOut("Kim","HQ")` (transaction 1) against `markReturn("Kim")`
(transaction 2) completes both transactions yet leaves the store equal
to neither serial composition — transaction 1's update is lost entirely,
so the two mock transactions did interleave and the result is not that
of running both in some serial order. -/
theorem c4_counterexample :
    (runSched (txMarkOut "Kim" "HQ" 1) (txMarkReturn "Kim" 2)
        [true, false, true, false] ([] : RecStore)).ph1 = Phase.done ∧
    (runSched (txMarkOut "Kim" "HQ" 1) (txMarkReturn "Kim" 2)
        [true, false, true, false] ([] : RecStore)).ph2 = Phase.done ∧
    (runSched (txMarkOut "Kim" "HQ" 1) (txMarkReturn "Kim" 2)
        [true, false, true, false] ([] : RecStore)).g ≠
      txMarkReturn "Kim" 2 (txMarkOut "Kim" "HQ" 1 []) ∧
    (runSched (txMarkOut "Kim" "HQ" 1) (txMarkReturn "Kim" 2)
        [true, false, true, false] ([] : RecStore)).g ≠
      txMarkOut "Kim" "HQ" 1 (txMarkReturn "Kim" 2 []) := by
  refine ⟨rfl, rfl, by decide, by decide⟩

/-- C4 (amended): any completed interleaving of two mock transactions
leaves the global store equal to the two transactions applied in one of
the two serial orders, or to exactly one of them applied to the initial
store (the other update lost) — never a field-mixed state. -/
theorem c4_mock_tx_race {α : Type} (f1 f2 : α → α) (init : α)
    (sched : List Bool)
    (h1 : (runSched f1 f2 sched init).ph1 = Phase.done)
    (h2 : (runSched f1 f2 sched init).ph2 = Phase.done) :
    (runSched f1 f2 sched init).g = f2 (f1 init) ∨
    (runSched f1 f2 sched init).g = f1 (f2 init) ∨
    (runSched f1 f2 sched init).g = f1 init ∨
    (runSched f1 f2 sched init).g = f2 init := by
  obtain ⟨-, -, -, -, -, hD⟩ := txInv_runSched f1 f2 init sched
  rcases hD h1 h2 with h | h | h | h <;> tauto

/-- Witness for C4 (amended): the serial schedule
read₁, write₁, read₂, write₂ at a concrete store. -/
theorem c4_mock_tx_race_witness :
    (runSched (txMarkOut "Kim" "HQ" 1) (txMarkReturn "Kim" 2)
        [true, true, false, false] ([] : RecStore)).ph1 = Phase.done ∧
    (runSched (txMarkOut "Kim" "HQ" 1) (txMarkReturn "Kim" 2)
        [true, true, false, false] ([] : RecStore)).ph2 = Phase.done ∧
    ((runSched (txMarkOut "Kim" "HQ" 1) (txMarkReturn "Kim" 2)
        [true, true, false, false] ([] : RecStore)).g =
      txMarkReturn "Kim" 2 (txMarkOut "Kim" "HQ" 1 []) ∨
     (runSched (txMarkOut "Kim" "HQ" 1) (txMarkReturn "Kim" 2)
        [true, true, false, false] ([] : RecStore)).g =
      txMarkOut "Kim" "HQ" 1 (txMarkReturn "Kim" 2 []) ∨
     (runSched (txMarkOut "Kim" "HQ" 1) (txMarkReturn "Kim" 2)
        [true, true, false, false] ([] : RecStore)).g =
      txMarkOut "Kim" "HQ" 1 [] ∨
     (runSched (txMarkOut "Kim" "HQ" 1) (txMarkReturn "Kim" 2)
        [true, true, false, false] ([] : RecStore)).g =
      txMarkReturn "Kim" 2 []) :=
  ⟨rfl, rfl, c4_mock_tx_race (txMarkOut "Kim" "HQ" 1) (txMarkReturn "Kim" 2)
    ([] : RecStore) [true, true, false, false] rfl rfl⟩

/-- C5 counterexample: deriving the status right after creating an
outbound record does not always give `outbound` with the given place —
on a Sunday the weekend rule overrides to `vacation`, and on a working
weekday an older still-active outbound record shadows the new one's
location (`find` scans from the front). -/
theorem c5_counterexample :
    deriveUserStatus
        (createOutbound [] ⟨1, "Kim"⟩ "Client HQ" 10 ⟨0, 10, 100⟩)
        ⟨1, "Kim"⟩ ⟨0, 10, 100⟩ = "vacation" ∧
    "vacation" ≠ "outbound" ∧
    currentLocationOf
        (createOutbound [⟨1, "A", "outbound", 5, 99⟩] ⟨1, "Kim"⟩ "B" 10
          ⟨1, 10, 100⟩) 1 = "A" ∧
    "A" ≠ "B" := by
  refine ⟨by decide, by decide, by decide, by decide⟩

/-- C5 (amended): when `now` is a working-hours weekday and the employee
has no other still-active outbound record, creating an outbound record
and immediately deriving the status yields `outbound` with the given
location. -/
theorem c5_markOut_then_derive (outbounds : List OutboundB) (u : UserB)
    (location : String) (outTime : Nat) (now : Clock)
    (hd0 : now.day ≠ 0) (hd6 : now.day ≠ 6)
    (hh9 : 9 ≤ now.hour) (hh18 : now.hour < 18)
    (hcur : findCurrentOutbound outbounds u.id = none) :
    deriveUserStatus (createOutbound outbounds u location outTime now) u now
        = "outbound" ∧
    currentLocationOf (createOutbound outbounds u location outTime now) u.id
        = location := by
  have hfind : findCurrentOutbound
      (createOutbound outbounds u location outTime now) u.id =
      some ⟨u.id, location, "outbound", outTime, now.dateKey⟩ := by
    unfold findCurrentOutbound createOutbound
    rw [List.find?_append]
    unfold findCurrentOutbound at hcur
    rw [hcur]
    simp
  constructor
  · unfold deriveUserStatus
    rw [hfind]
    rw [if_neg (by simp [hd0, hd6])]
    rw [if_neg (by omega)]
    rw [if_neg (by simp)]
    simp
  · unfold currentLocationOf
    rw [hfind]

/-- Witness for C5 (amended) at a concrete input. -/
theorem c5_markOut_then_derive_witness :
    (⟨1, 10, 100⟩ : Clock).day ≠ 0 ∧ (⟨1, 10, 100⟩ : Clock).day ≠ 6 ∧
    9 ≤ (⟨1, 10, 100⟩ : Clock).hour ∧ (⟨1, 10, 100⟩ : Clock).hour < 18 ∧
    findCurrentOutbound [] (⟨1, "Kim"⟩ : UserB).id = none ∧
    (deriveUserStatus
        (createOutbound [] ⟨1, "Kim"⟩ "Client HQ" 10 ⟨1, 10, 100⟩)
        ⟨1, "Kim"⟩ ⟨1, 10, 100⟩ = "outbound" ∧
     currentLocationOf
        (createOutbound [] ⟨1, "Kim"⟩ "Client HQ" 10 ⟨1, 10, 100⟩)
        (⟨1, "Kim"⟩ : UserB).id = "Client HQ") :=
  ⟨by decide, by decide, by decide, by decide, by decide,
    c5_markOut_then_derive [] ⟨1, "Kim"⟩ "Client HQ" 10 ⟨1, 10, 100⟩
      (by decide) (by decide) (by decide) (by decide) (by decide)⟩

/-- C6 counterexample: in mock mode the live log feed ignores
`orderBy("ts","desc")` and delivers the entries in key-insertion
(i.e. append, oldest-first) order, so after two chronological appends
the delivered view is not ordered newest-first. -/
theorem c6_counterexample :
    ¬ List.Chain' (fun a b => b.ts ≤ a.ts)
        (mockLogFeed (markReturn (markOut dbEmpty "Kim" "HQ" 1) "Kim" 2)) := by
  simp [mockLogFeed, markReturn, markOut, writeLog, dbEmpty, List.chain'_cons]

/-- C6 (amended): the admin log view `systemLogs.slice(-limit).reverse()`
is capped at `limit` entries (for a positive limit), is ordered newest
first whenever the log was appended in chronological order, and the read
leaves `systemLogs` unchanged; the mock feed's view, by contrast, is the
raw append-ordered list. -/
theorem c6_admin_logs_view (logs : List LogB) (lim : Nat)
    (hlim : 0 < lim)
    (hchron : List.Chain' (fun a b => a.ts ≤ b.ts) logs) :
    (adminLogsView logs lim).length ≤ lim ∧
    List.Chain' (fun a b => b.ts ≤ a.ts) (adminLogsView logs lim) ∧
    (adminLogsHandler logs lim).2 = logs := by
  refine ⟨?_, ?_, rfl⟩
  · unfold adminLogsView sliceNeg
    rw [if_neg (Nat.pos_iff_ne_zero.mp hlim)]
    simp only [List.length_reverse, List.length_drop]
    omega
  · unfold adminLogsView
    rw [List.chain'_reverse]
    unfold sliceNeg
    rw [if_neg (Nat.pos_iff_ne_zero.mp hlim)]
    exact hchron.drop _

/-- Witness for C6 (amended) at a concrete input. -/
theorem c6_admin_logs_view_witness :
    0 < 2 ∧
    List.Chain' (fun a b => a.ts ≤ b.ts)
      ([⟨"login", 1⟩, ⟨"out", 2⟩, ⟨"back", 3⟩] : List LogB) ∧
    ((adminLogsView [⟨"login", 1⟩, ⟨"out", 2⟩, ⟨"back", 3⟩] 2).length ≤ 2 ∧
     List.Chain' (fun a b => b.ts ≤ a.ts)
       (adminLogsView [⟨"login", 1⟩, ⟨"out", 2⟩, ⟨"back", 3⟩] 2) ∧
     (adminLogsHandler [⟨"login", 1⟩, ⟨"out", 2⟩, ⟨"back", 3⟩] 2).2 =
       [⟨"login", 1⟩, ⟨"out", 2⟩, ⟨"back", 3⟩]) :=
  ⟨by decide, by simp [List.chain'_cons],
    c6_admin_logs_view [⟨"login", 1⟩, ⟨"out", 2⟩, ⟨"back", 3⟩] 2
      (by decide) (by simp [List.chain'_cons])⟩

/-- C9 counterexample: unsubscribing immediately (tick 0), before any
callback has fired, still lets exactly one callback through — the
pending initial `setTimeout(..., 0)` snapshot, which `onSnapshotMock`
neither clears nor guards with the `stopped` flag. -/
theorem c9_counterexample : cbAfterUnsub 0 10 = 1 ∧ (1 : Nat) ≠ 0 := by
  decide

/-- C9 (amended): after unsubscribing at tick `u` no interval callback
ever fires again; the only possible later invocation is the single
pending initial-snapshot timeout, and only when unsubscribe preceded it
(`u = 0`); the unsubscribe closure itself is idempotent. -/
theorem c9_unsubscribe_spec :
    (∀ u horizon, cbAfterUnsub u horizon =
      if u = 0 then min horizon 1 else 0) ∧
    (∀ s, unsubscribeMock (unsubscribeMock s) = unsubscribeMock s) := by
  constructor
  · intro u horizon
    exact cbAfterUnsub_eq u horizon
  · intro s
    rfl

/-- C10: the returned bucket of `getStatusSummary` is always empty — no
branch of the per-user derivation ever assigns the status `returned`. -/
theorem c10_returned_bucket_zero (users : List UserB)
    (outbounds : List OutboundB) (now : Clock) :
    summaryCount users outbounds now "returned" = 0 := by
  unfold summaryCount
  rw [List.length_eq_zero, List.filter_eq_nil_iff]
  intro u _
  have h := deriveUserStatus_ne_returned outbounds u now
  simp [h]

end Outbound
